import Mathlib

/-!
Shallow embedding of `src/lightning-test.py`.

Tensors are modelled as nested lists of rationals (exact arithmetic for the
affine/ReLU layers); the cross-entropy loss, which uses `exp`/`log`, is valued
in `Option ℝ`, where `none` models the NaN float produced by a 0/0 mean
(no non-ignored targets).  Labels are integers (`ℤ`), matching the int64
label tensors.
The module-level control flow of the script is modelled as a trace of effects.
-/

/-- An input image of shape (channels, height, width); the dataset produces
shape (1, 28, 28). -/
abbrev Image : Type := List (List (List ℚ))

/-- Well-formedness of an input image: shape (1, 28, 28). -/
def ImageWF (img : Image) : Prop :=
  img.length = 1 ∧ ∀ ch ∈ img, ch.length = 28 ∧ ∀ row ∈ ch, row.length = 28

instance (img : Image) : Decidable (ImageWF img) := by
  unfold ImageWF
  infer_instance

/-- `nn.Flatten()` applied to a single sample: concatenate channels and rows
into one 1-D vector. -/
def flattenImage (img : Image) : List ℚ :=
  img.flatten.flatten

/-- Dot product of two vectors (extra trailing entries of either side are
ignored; well-formed calls have equal lengths). -/
def dot (w x : List ℚ) : ℚ :=
  ((w.zip x).map (fun q => q.1 * q.2)).sum

/-- `nn.Linear`: `y i = dot (row i of W) x + b i`, with `W` given as its list
of rows. -/
def linear (W : List (List ℚ)) (b : List ℚ) (x : List ℚ) : List ℚ :=
  (W.zip b).map (fun wb => dot wb.1 x + wb.2)

/-- `nn.ReLU`: pointwise zero-clamping. -/
def relu (x : List ℚ) : List ℚ :=
  x.map (fun v => max v 0)

/-- The parameter collection of `NeuralNetwork`: weights and biases of the
three `nn.Linear` layers of `linear_relu_stack`. -/
structure Params where
  W1 : List (List ℚ)
  b1 : List ℚ
  W2 : List (List ℚ)
  b2 : List ℚ
  W3 : List (List ℚ)
  b3 : List ℚ

/-- Parameter shapes as fixed in `NeuralNetwork.__init__`:
`Linear(28*28, 512)`, `Linear(512, 512)`, `Linear(512, 10)`. -/
def ParamsWF (p : Params) : Prop :=
  p.W1.length = 512 ∧ (∀ r ∈ p.W1, r.length = 28 * 28) ∧ p.b1.length = 512 ∧
  p.W2.length = 512 ∧ (∀ r ∈ p.W2, r.length = 512) ∧ p.b2.length = 512 ∧
  p.W3.length = 10 ∧ (∀ r ∈ p.W3, r.length = 512) ∧ p.b3.length = 10

namespace NeuralNetwork

/-- `NeuralNetwork.forward`: flatten, then `linear_relu_stack` =
Linear(784,512) ∘ ReLU ∘ Linear(512,512) ∘ ReLU ∘ Linear(512,10), with no
nonlinearity after the last affine layer. -/
def forward (p : Params) (x : Image) : List ℚ :=
  linear p.W3 p.b3 (relu (linear p.W2 p.b2 (relu (linear p.W1 p.b1 (flattenImage x)))))

end NeuralNetwork

/-- `forward` applied to a batch of `N` images (batched evaluation of the
stack; each sample is processed independently). -/
def forwardBatch (p : Params) (xs : List Image) : List (List ℚ) :=
  xs.map (NeuralNetwork.forward p)

theorem length_linear (W : List (List ℚ)) (b : List ℚ) (x : List ℚ) :
    (linear W b x).length = min W.length b.length := by
  simp [linear]

theorem length_relu (x : List ℚ) : (relu x).length = x.length := by
  simp [relu]

theorem length_forward (p : Params) (hp : ParamsWF p) (x : Image) :
    (NeuralNetwork.forward p x).length = 10 := by
  obtain ⟨-, -, -, -, -, -, h7, -, h9⟩ := hp
  simp [NeuralNetwork.forward, length_linear, h7, h9]

theorem length_flattenImage (img : Image) (h : ImageWF img) :
    (flattenImage img).length = 28 * 28 := by
  obtain ⟨h1, h2⟩ := h
  match img, h1 with
  | [ch], _ =>
    obtain ⟨hch, hrow⟩ := h2 ch (by simp)
    have : ∀ n ∈ ch.map List.length, n = 28 := by
      intro n hn
      obtain ⟨row, hrowmem, hrfl⟩ := List.mem_map.mp hn
      rw [← hrfl]; exact hrow row hrowmem
    simp only [flattenImage, List.flatten, List.append_nil, List.length_flatten]
    rw [List.sum_eq_card_nsmul _ 28 this]
    simp [hch]

/-! ## Loss and step functions -/

/-- Error raised by `nn.functional.cross_entropy` when a target label lies
outside the class-index range of the logits. -/
inductive CEError where
  | labelOutOfRange : CEError
deriving DecidableEq

/-- One target's contribution to `nn.functional.cross_entropy` under the
defaults (`ignore_index = -100`).  A target equal to the ignore index is
skipped before any bounds check (`none`); a target in `[0, logits.length)`
contributes
`-log (exp (logits y) / Σ exp (logits i)) = log (Σ exp (logits i)) - logits y`;
any other target is out of bounds. -/
noncomputable def crossEntropy1 (logits : List ℚ) (y : ℤ) :
    Except CEError (Option ℝ) :=
  if y = -100 then Except.ok none
  else if h : 0 ≤ y ∧ y.toNat < logits.length then
    Except.ok (some (Real.log ((logits.map (fun (v : ℚ) => Real.exp (v : ℝ))).sum)
      - ((logits.get ⟨y.toNat, h.2⟩ : ℚ) : ℝ)))
  else
    Except.error CEError.labelOutOfRange

/-- Running pair (sum of per-sample cross-entropies, number of non-ignored
targets) of a batch after `forward`; an out-of-bounds target aborts the
computation with the error, an ignored target contributes to neither
component. -/
noncomputable def sumLosses (p : Params) : List (Image × ℤ) → Except CEError (ℝ × ℕ)
  | [] => Except.ok (0, 0)
  | s :: rest =>
    match crossEntropy1 (NeuralNetwork.forward p s.1) s.2, sumLosses p rest with
    | Except.ok none, Except.ok acc => Except.ok acc
    | Except.ok (some l), Except.ok acc => Except.ok (l + acc.1, acc.2 + 1)
    | Except.error e, _ => Except.error e
    | _, Except.error e => Except.error e

/-- The shared loss computation of `training_step` (lines 22-27):
`cross_entropy(self(x), y)` with the default mean reduction — the summed
loss divided by the number of non-ignored targets.  `none` models the NaN
float 0/0 produced when that count is zero (empty batch, or every target
equal to the ignore index). -/
noncomputable def stepLoss (p : Params) (batch : List (Image × ℤ)) :
    Except CEError (Option ℝ) :=
  (sumLosses p batch).map (fun sn => if sn.2 = 0 then none else some (sn.1 / sn.2))

namespace NeuralNetwork

/-- `NeuralNetwork.training_step`: compute the batch loss, log it under
`train_loss`, and return it.  The result pairs the returned loss with the
list of (metric name, value) records emitted by `self.log`. -/
noncomputable def training_step (p : Params) (batch : List (Image × ℤ)) :
    Except CEError (Option ℝ × List (String × Option ℝ)) :=
  match stepLoss p batch with
  | Except.ok l => Except.ok (l, [("train_loss", l)])
  | Except.error e => Except.error e

/-- `NeuralNetwork.validation_step`: call `training_step` on the same batch
(inheriting its `train_loss` log record), log the returned loss under
`val_loss`, and return it. -/
noncomputable def validation_step (p : Params) (batch : List (Image × ℤ)) :
    Except CEError (Option ℝ × List (String × Option ℝ)) :=
  match training_step p batch with
  | Except.ok (l, logs) => Except.ok (l, logs ++ [("val_loss", l)])
  | Except.error e => Except.error e

end NeuralNetwork

/-! ## Optimizer selector -/

/-- The optimizer families of `torch.optim` relevant here. -/
inductive OptimKind where
  | sgd : OptimKind
  | adam : OptimKind
  | rmsprop : OptimKind
deriving DecidableEq

/-- A configured optimizer: family, hyper-parameters, and the parameter
collection it will update. -/
structure Optimizer where
  kind : OptimKind
  lr : ℚ
  momentum : ℚ
  dampening : ℚ
  weightDecay : ℚ
  nesterov : Bool
  params : Params

namespace NeuralNetwork

/-- `NeuralNetwork.configure_optimizers`:
`torch.optim.SGD(self.parameters(), lr=1e-3)` — plain SGD at learning rate
1e-3 with the `torch.optim.SGD` defaults (no momentum, no weight decay). -/
def configure_optimizers (p : Params) : Optimizer :=
  { kind := OptimKind.sgd, lr := 1 / 1000, momentum := 0, dampening := 0,
    weightDecay := 0, nesterov := false, params := p }

end NeuralNetwork

/-! ## Inference / report step -/

/-- The fixed class-label list (lines 82-93). -/
def classes : List String :=
  ["T-shirt/top", "Trouser", "Pullover", "Dress", "Coat",
   "Sandal", "Shirt", "Sneaker", "Bag", "Ankle boot"]

/-- `torch.argmax` over a vector: index of the maximum entry, first
occurrence on ties.  `i` is the index of the head of `l`; `bi`/`bv` are the
best index and value so far. -/
def argmaxAux : List ℚ → ℕ → ℕ → ℚ → ℕ
  | [], _, bi, _ => bi
  | v :: rest, i, bi, bv =>
    if bv < v then argmaxAux rest (i + 1) i v else argmaxAux rest (i + 1) bi bv

/-- `tensor.argmax(0)` for a 1-D score vector. -/
def argmax : List ℚ → ℕ
  | [] => 0
  | v :: rest => argmaxAux rest 1 0 v

/-- Errors of the inference/report block. -/
inductive ReportError where
  | emptyTestSet : ReportError
  | indexError : ReportError
deriving DecidableEq

instance exceptDecidableEq {ε α : Type} [DecidableEq ε] [DecidableEq α] :
    DecidableEq (Except ε α) := fun x y =>
  match x, y with
  | Except.ok a, Except.ok b =>
    if h : a = b then isTrue (by rw [h]) else isFalse (fun hc => h (Except.ok.inj hc))
  | Except.error e, Except.error f =>
    if h : e = f then isTrue (by rw [h]) else isFalse (fun hc => h (Except.error.inj hc))
  | Except.ok _, Except.error _ => isFalse (fun hc => Except.noConfusion hc)
  | Except.error _, Except.ok _ => isFalse (fun hc => Except.noConfusion hc)

/-- Python list indexing `l[i]`: negative indices count from the end;
anything outside `[-len, len)` raises `IndexError`. -/
def pyGet (l : List String) (i : ℤ) : Except ReportError String :=
  if h : 0 ≤ i ∧ i < (l.length : ℤ) then
    Except.ok (l.get ⟨i.toNat, by omega⟩)
  else if h2 : i < 0 ∧ 0 ≤ i + (l.length : ℤ) then
    Except.ok (l.get ⟨(i + (l.length : ℤ)).toNat, by omega⟩)
  else
    Except.error ReportError.indexError

/-- Lines 80-95 applied to one sample `(x, y)`: run `forward`, decode
`classes[pred[0].argmax(0)]` and `classes[y]`, and format
`Predicted: "<predicted>", Actual: "<actual>"`. -/
def reportLine (p : Params) (x : Image) (y : ℤ) : Except ReportError String :=
  match pyGet classes ((argmax (NeuralNetwork.forward p x) : ℕ) : ℤ), pyGet classes y with
  | Except.ok plabel, Except.ok alabel =>
    Except.ok ("Predicted: \"" ++ plabel ++ "\", Actual: \"" ++ alabel ++ "\"")
  | Except.error e, _ => Except.error e
  | _, Except.error e => Except.error e

/-- The whole inference/report block (lines 78-95): draw the first sample of
the held-out split via `next(iter(DataLoader(test_data, batch_size=1)))` —
raising on an empty split — then produce the report line. -/
def reportStep (p : Params) (test : List (Image × ℤ)) : Except ReportError String :=
  match test with
  | [] => Except.error ReportError.emptyTestSet
  | (x, y) :: _ => reportLine p x y

/-! ## Module-level control flow as an effect trace -/

/-- Observable effects of the module-level statements of the script. -/
inductive Effect where
  | download : String → Bool → Effect
  | chdir : String → Effect
  | printLine : String → Effect
  | modelCreate : Effect
  | fit : Effect
  | inferForward : Effect
deriving DecidableEq

/-- Effects of the inference/report block: nothing on an empty split
(`next` raises before the forward pass); otherwise one forward pass followed
by the print of the report line (an index error aborts before printing). -/
def reportEffects (p : Params) (test : List (Image × ℤ)) : List Effect :=
  match test with
  | [] => []
  | (x, y) :: _ =>
    Effect.inferForward ::
      (match reportLine p x y with
       | Except.ok s => [Effect.printLine s]
       | Except.error _ => [])

/-- The effect trace of the script's module-level statements, in source
order: the two `datasets.FashionMNIST(root="data", ...)` downloads
(lines 42-55), `os.chdir('/workspace')` then `print(os.getcwd())`
(lines 62-64), model construction and `trainer.fit` (lines 70-74), and the
inference/report block (lines 78-95).  `p` is the parameter state the model
holds when the report runs. -/
def scriptEffects (p : Params) (test : List (Image × ℤ)) : List Effect :=
  [Effect.download "data" true, Effect.download "data" false,
   Effect.chdir "/workspace", Effect.printLine "/workspace",
   Effect.modelCreate, Effect.fit] ++ reportEffects p test

/-- The lines printed to the console by a trace. -/
def printedLines (l : List Effect) : List String :=
  l.filterMap (fun e =>
    match e with
    | Effect.printLine s => some s
    | _ => none)

/-! ## Concrete well-formed inputs (zero-initialized network, blank image) -/

/-- A parameter state with the shapes fixed in `__init__` and all entries 0. -/
def zeroParams : Params :=
  { W1 := List.replicate 512 (List.replicate (28 * 28) 0)
  , b1 := List.replicate 512 0
  , W2 := List.replicate 512 (List.replicate 512 0)
  , b2 := List.replicate 512 0
  , W3 := List.replicate 10 (List.replicate 512 0)
  , b3 := List.replicate 10 0 }

/-- A blank input image of shape (1, 28, 28). -/
def zeroImage : Image :=
  List.replicate 1 (List.replicate 28 (List.replicate 28 0))

theorem zeroParams_wf : ParamsWF zeroParams := by
  refine ⟨by simp only [zeroParams, List.length_replicate], ?_,
    by simp only [zeroParams, List.length_replicate],
    by simp only [zeroParams, List.length_replicate], ?_,
    by simp only [zeroParams, List.length_replicate],
    by simp only [zeroParams, List.length_replicate], ?_,
    by simp only [zeroParams, List.length_replicate]⟩ <;>
    · intro r hr
      simp only [zeroParams] at hr
      rw [List.eq_of_mem_replicate hr]
      simp only [List.length_replicate]

theorem zeroImage_wf : ImageWF zeroImage := by
  refine ⟨by simp only [zeroImage, List.length_replicate], ?_⟩
  intro ch hch
  simp only [zeroImage] at hch
  rw [List.eq_of_mem_replicate hch]
  refine ⟨by simp only [List.length_replicate], ?_⟩
  intro row hrow
  rw [List.eq_of_mem_replicate hrow]
  simp only [List.length_replicate]

theorem zip_replicate_eq {α β : Type} (n : ℕ) (a : α) (b : β) :
    (List.replicate n a).zip (List.replicate n b) = List.replicate n (a, b) := by
  induction n with
  | zero => rfl
  | succ k ih => simp [List.replicate_succ, ih]

theorem dot_replicate_zero (m : ℕ) (x : List ℚ) : dot (List.replicate m 0) x = 0 := by
  unfold dot
  apply List.sum_eq_zero
  intro v hv
  obtain ⟨q, hq, rfl⟩ := List.mem_map.mp hv
  have h1 := (List.of_mem_zip hq).1
  rw [List.eq_of_mem_replicate h1]
  simp

theorem linear_zero (n m : ℕ) (x : List ℚ) :
    linear (List.replicate n (List.replicate m 0)) (List.replicate n 0) x =
      List.replicate n 0 := by
  unfold linear
  rw [zip_replicate_eq, List.map_replicate]
  simp [dot_replicate_zero]

theorem relu_replicate_zero (n : ℕ) :
    relu (List.replicate n (0 : ℚ)) = List.replicate n 0 := by
  unfold relu
  rw [List.map_replicate]
  simp

theorem forward_zeroParams (x : Image) :
    NeuralNetwork.forward zeroParams x = List.replicate 10 0 := by
  simp only [NeuralNetwork.forward, zeroParams]
  rw [linear_zero]

/-! ## Bounds for argmax and the class lookups -/

theorem argmaxAux_lt (l : List ℚ) :
    ∀ (i bi : ℕ) (bv : ℚ), bi < i → argmaxAux l i bi bv < i + l.length := by
  induction l with
  | nil =>
    intro i bi bv h
    simp only [argmaxAux, List.length_nil]
    omega
  | cons v rest ih =>
    intro i bi bv h
    simp only [argmaxAux, List.length_cons]
    split
    · have h2 := ih (i + 1) i v (Nat.lt_succ_self i)
      omega
    · have h2 := ih (i + 1) bi bv (by omega)
      omega

theorem argmax_lt_length (l : List ℚ) (h : l ≠ []) : argmax l < l.length := by
  match l, h with
  | v :: rest, _ =>
    simp only [argmax, List.length_cons]
    have h2 := argmaxAux_lt rest 1 0 v Nat.zero_lt_one
    omega

theorem pyGet_eq_getD (l : List String) (y : ℤ) (h0 : 0 ≤ y) (h1 : y < l.length) :
    pyGet l y = Except.ok (l.getD y.toNat "") := by
  unfold pyGet
  rw [dif_pos ⟨h0, h1⟩]
  congr 1
  have hb : y.toNat < l.length := by omega
  rw [List.getD_eq_getElem l "" hb]
  exact List.get_eq_getElem l _

/-! ## Cross-entropy: success and non-negativity -/

theorem crossEntropy1_ok_nonneg (logits : List ℚ) (y : ℤ)
    (h0 : 0 ≤ y) (h1 : y.toNat < logits.length) :
    ∃ r, crossEntropy1 logits y = Except.ok (some r) ∧ 0 ≤ r := by
  unfold crossEntropy1
  rw [if_neg (by omega), dif_pos ⟨h0, h1⟩]
  refine ⟨_, rfl, ?_⟩
  have hall : ∀ x ∈ logits.map (fun (v : ℚ) => Real.exp (v : ℝ)), 0 ≤ x := by
    intro x hx
    obtain ⟨q, -, rfl⟩ := List.mem_map.mp hx
    exact (Real.exp_pos _).le
  have hmem : Real.exp ((logits.get ⟨y.toNat, h1⟩ : ℚ) : ℝ) ∈
      logits.map (fun (v : ℚ) => Real.exp (v : ℝ)) :=
    List.mem_map_of_mem (fun (v : ℚ) => Real.exp (v : ℝ)) (List.get_mem logits y.toNat h1)
  have hle := List.single_le_sum hall _ hmem
  have h2 : ((logits.get ⟨y.toNat, h1⟩ : ℚ) : ℝ) ≤
      Real.log ((logits.map (fun (v : ℚ) => Real.exp (v : ℝ))).sum) := by
    rw [← Real.log_exp ((logits.get ⟨y.toNat, h1⟩ : ℚ) : ℝ)]
    exact Real.log_le_log (Real.exp_pos _) hle
  linarith

theorem sumLosses_ok (p : Params) (hp : ParamsWF p) :
    ∀ batch : List (Image × ℤ), (∀ s ∈ batch, 0 ≤ s.2 ∧ s.2 < 10) →
      ∃ r, sumLosses p batch = Except.ok (r, batch.length) ∧ 0 ≤ r := by
  intro batch
  induction batch with
  | nil => exact fun _ => ⟨0, rfl, le_refl 0⟩
  | cons s rest ih =>
    intro hl
    obtain ⟨h0, h1⟩ := hl s (List.mem_cons_self s rest)
    have hlen := length_forward p hp s.1
    have hy : s.2.toNat < (NeuralNetwork.forward p s.1).length := by omega
    obtain ⟨r1, hr1, hr1n⟩ := crossEntropy1_ok_nonneg _ _ h0 hy
    obtain ⟨r2, hr2, hr2n⟩ := ih (fun t ht => hl t (List.mem_cons_of_mem s ht))
    refine ⟨r1 + r2, ?_, by linarith⟩
    simp only [sumLosses, hr1, hr2, List.length_cons]

/-- A target equal to the ignore index contributes nothing and is never
bounds-checked. -/
theorem crossEntropy1_ignored (logits : List ℚ) :
    crossEntropy1 logits (-100) = Except.ok none := by
  unfold crossEntropy1
  rw [if_pos rfl]

theorem sumLosses_ignored (p : Params) :
    ∀ batch : List (Image × ℤ), (∀ s ∈ batch, s.2 = -100) →
      sumLosses p batch = Except.ok (0, 0) := by
  intro batch
  induction batch with
  | nil => exact fun _ => rfl
  | cons s rest ih =>
    intro hl
    have hs := hl s (List.mem_cons_self s rest)
    have hrest := ih (fun t ht => hl t (List.mem_cons_of_mem s ht))
    simp only [sumLosses, hs, crossEntropy1_ignored, hrest]

/-! ## Concrete evaluations at the zero-initialized network -/

theorem crossEntropy1_zeroLogits :
    crossEntropy1 (List.replicate 10 (0 : ℚ)) 0 = Except.ok (some (Real.log 10)) := by
  unfold crossEntropy1
  rw [if_neg (by omega), dif_pos ⟨le_refl 0, by simp only [List.length_replicate]; omega⟩]
  congr 2
  simp [List.map_replicate, List.sum_replicate, Real.exp_zero, List.get_eq_getElem]
  norm_num

theorem stepLoss_zeroBatch :
    stepLoss zeroParams [(zeroImage, 0)] = Except.ok (some (Real.log 10)) := by
  have h1 : sumLosses zeroParams [(zeroImage, 0)] = Except.ok (Real.log 10, 1) := by
    simp only [sumLosses, forward_zeroParams, crossEntropy1_zeroLogits, add_zero, zero_add]
  unfold stepLoss
  rw [h1]
  simp [Except.map]

theorem training_step_zeroBatch :
    NeuralNetwork.training_step zeroParams [(zeroImage, 0)] =
      Except.ok (some (Real.log 10), [("train_loss", some (Real.log 10))]) := by
  simp only [NeuralNetwork.training_step, stepLoss_zeroBatch]

theorem validation_step_zeroBatch :
    NeuralNetwork.validation_step zeroParams [(zeroImage, 0)] =
      Except.ok (some (Real.log 10),
        [("train_loss", some (Real.log 10)), ("val_loss", some (Real.log 10))]) := by
  simp only [NeuralNetwork.validation_step, training_step_zeroBatch]
  rfl

theorem reportLine_zero :
    reportLine zeroParams zeroImage 0 =
      Except.ok "Predicted: \"T-shirt/top\", Actual: \"T-shirt/top\"" := by
  unfold reportLine
  rw [forward_zeroParams]
  decide

theorem reportStep_zero :
    reportStep zeroParams [(zeroImage, 0)] =
      Except.ok "Predicted: \"T-shirt/top\", Actual: \"T-shirt/top\"" := by
  simp only [reportStep]
  exact reportLine_zero

/-! ## Report-line characterization -/

theorem forward_ne_nil (p : Params) (hp : ParamsWF p) (x : Image) :
    NeuralNetwork.forward p x ≠ [] := by
  intro hc
  have hlen := length_forward p hp x
  rw [hc] at hlen
  simp at hlen

theorem argmax_forward_lt (p : Params) (hp : ParamsWF p) (x : Image) :
    argmax (NeuralNetwork.forward p x) < 10 := by
  have h2 := argmax_lt_length _ (forward_ne_nil p hp x)
  rw [length_forward p hp x] at h2
  exact h2

theorem reportLine_chars (p : Params) (hp : ParamsWF p) (x : Image) (y : ℤ)
    (h0 : 0 ≤ y) (h1 : y < 10) :
    reportLine p x y =
      Except.ok ("Predicted: \"" ++ classes.getD (argmax (NeuralNetwork.forward p x)) ""
        ++ "\", Actual: \"" ++ classes.getD y.toNat "" ++ "\"") := by
  have ham := argmax_forward_lt p hp x
  have hclen : classes.length = 10 := rfl
  have hpa : pyGet classes ((argmax (NeuralNetwork.forward p x) : ℕ) : ℤ) =
      Except.ok (classes.getD (argmax (NeuralNetwork.forward p x)) "") := by
    have h2 := pyGet_eq_getD classes ((argmax (NeuralNetwork.forward p x) : ℕ) : ℤ)
      (Int.natCast_nonneg _) (by rw [hclen]; exact_mod_cast ham)
    rw [h2, Int.toNat_natCast]
  have hpy : pyGet classes y = Except.ok (classes.getD y.toNat "") :=
    pyGet_eq_getD classes y h0 (by rw [hclen]; exact_mod_cast h1)
  unfold reportLine
  rw [hpa, hpy]

/-! ## Effect-trace helper lemmas -/

theorem reportEffects_mem (p : Params) (test : List (Image × ℤ)) :
    ∀ e ∈ reportEffects p test,
      e = Effect.inferForward ∨ ∃ s, e = Effect.printLine s := by
  intro e he
  match test with
  | [] => simp [reportEffects] at he
  | (x, y) :: rest =>
    simp only [reportEffects] at he
    rw [List.mem_cons] at he
    rcases he with rfl | he
    · exact Or.inl rfl
    · cases hr : reportLine p x y with
      | ok s =>
        rw [hr] at he
        simp only [List.mem_singleton] at he
        exact Or.inr ⟨s, he⟩
      | error e2 =>
        rw [hr] at he
        simp at he

/-! ## Claim theorems -/

/-- **C1**: For every input batch of shape (N, 1, 28, 28) and parameters of
the shapes fixed in `__init__`, the forward pass returns N score vectors of
length 10; each input is flattened to a 1-D vector of length 28*28, and the
computation is exactly Linear(784,512) → ReLU → Linear(512,512) → ReLU →
Linear(512,10), with no nonlinearity after the final affine transform. -/
theorem c1_forward_shape (p : Params) (xs : List Image)
    (hp : ParamsWF p) (hx : ∀ img ∈ xs, ImageWF img) :
    (forwardBatch p xs).length = xs.length ∧
    (∀ out ∈ forwardBatch p xs, out.length = 10) ∧
    (∀ img ∈ xs, (flattenImage img).length = 28 * 28) ∧
    (∀ img : Image, NeuralNetwork.forward p img =
      linear p.W3 p.b3 (relu (linear p.W2 p.b2
        (relu (linear p.W1 p.b1 (flattenImage img)))))) := by
  refine ⟨by simp [forwardBatch], ?_, ?_, fun img => rfl⟩
  · intro out hout
    simp only [forwardBatch] at hout
    obtain ⟨img, -, rfl⟩ := List.mem_map.mp hout
    exact length_forward p hp img
  · intro img himg
    exact length_flattenImage img (hx img himg)

/-- Witness for C1 at the zero-initialized network and a blank (1,28,28)
image. -/
theorem c1_forward_shape_witness :
    (forwardBatch zeroParams [zeroImage]).length = 1 ∧
    ∀ out ∈ forwardBatch zeroParams [zeroImage], out.length = 10 := by
  have h := c1_forward_shape zeroParams [zeroImage] zeroParams_wf
    (by intro img himg; rw [List.mem_singleton] at himg; rw [himg]; exact zeroImage_wf)
  exact ⟨h.1, h.2.1⟩

/-- **C2**: for the same batch and the same parameter state,
`validation_step` returns exactly the loss value `training_step` returns
(in the source, `validation_step` returns the tensor produced by its call to
`training_step`, so the two are the same computation). -/
theorem c2_validation_loss_eq_training (p : Params) (batch : List (Image × ℤ)) :
    (NeuralNetwork.validation_step p batch).map Prod.fst =
      (NeuralNetwork.training_step p batch).map Prod.fst := by
  unfold NeuralNetwork.validation_step
  cases h : NeuralNetwork.training_step p batch with
  | ok pair =>
    obtain ⟨l, logs⟩ := pair
    simp [Except.map]
  | error e => simp [Except.map]

/-- **C3 counterexample**: `nn.functional.cross_entropy`'s default
`ignore_index = -100` skips a -100 target before the bounds check, so a
batch containing the out-of-range label -100 does **not** raise the
out-of-range error — its loss is the NaN 0/0 (`none`).  Likewise the empty
batch, all of whose labels vacuously lie in [0,10), yields NaN rather than
a non-negative scalar. -/
theorem c3_ignore_index_cex :
    stepLoss zeroParams [(zeroImage, -100)] = Except.ok none ∧
    stepLoss zeroParams [(zeroImage, -100)] ≠ Except.error CEError.labelOutOfRange ∧
    stepLoss zeroParams [] = Except.ok none := by
  have h1 : stepLoss zeroParams [(zeroImage, -100)] = Except.ok none := by
    have h2 : sumLosses zeroParams [(zeroImage, -100)] = Except.ok (0, 0) :=
      sumLosses_ignored zeroParams _
        (by intro s hs; rw [List.mem_singleton] at hs; rw [hs])
    unfold stepLoss
    rw [h2]
    rfl
  exact ⟨h1, by rw [h1]; exact fun hc => Except.noConfusion hc, rfl⟩

/-- **C3 amended**: with well-shaped parameters, a *nonempty* batch whose
labels all lie in [0,10) yields an (ok) real, non-negative loss; a batch
containing any label outside [0,10) *other than the ignore index -100*
yields the out-of-range error propagated from the cross-entropy
computation; a batch all of whose labels are the ignore index (in
particular the empty batch) yields the NaN loss instead of raising. -/
theorem c3_amended_loss_nonneg_or_error (p : Params) (batch : List (Image × ℤ))
    (hp : ParamsWF p) :
    (batch ≠ [] → (∀ s ∈ batch, 0 ≤ s.2 ∧ s.2 < 10) →
      ∃ r, stepLoss p batch = Except.ok (some r) ∧ 0 ≤ r) ∧
    ((∃ s ∈ batch, (s.2 < 0 ∨ 10 ≤ s.2) ∧ s.2 ≠ -100) →
      stepLoss p batch = Except.error CEError.labelOutOfRange) ∧
    ((∀ s ∈ batch, s.2 = -100) → stepLoss p batch = Except.ok none) := by
  refine ⟨?_, ?_, ?_⟩
  · intro hne hl
    obtain ⟨s, hs, hsn⟩ := sumLosses_ok p hp batch hl
    refine ⟨s / batch.length, ?_, div_nonneg hsn (Nat.cast_nonneg _)⟩
    unfold stepLoss
    rw [hs]
    have hlen : batch.length ≠ 0 := by
      intro hc
      exact hne (List.length_eq_zero.mp hc)
    simp [Except.map, hlen]
  · intro hbad
    have herr : sumLosses p batch = Except.error CEError.labelOutOfRange := by
      obtain ⟨s, hs, hrange, hni⟩ := hbad
      induction batch with
      | nil => simp at hs
      | cons t rest ih =>
        rw [List.mem_cons] at hs
        rcases hs with rfl | hs
        · have hce : crossEntropy1 (NeuralNetwork.forward p s.1) s.2 =
              Except.error CEError.labelOutOfRange := by
            unfold crossEntropy1
            rw [if_neg hni, dif_neg]
            intro hc
            have hlen := length_forward p hp s.1
            rcases hrange with h | h
            · omega
            · have h2 := hc.2
              omega
          simp only [sumLosses, hce]
        · have hrest := ih hs
          simp only [sumLosses, hrest]
          cases h : crossEntropy1 (NeuralNetwork.forward p t.1) t.2 with
          | ok a => cases a <;> rfl
          | error e => rfl
    unfold stepLoss
    rw [herr]
    rfl
  · intro hign
    have h2 := sumLosses_ignored p batch hign
    unfold stepLoss
    rw [h2]
    rfl

/-- Witness for C3 amended: label 3 gives a non-negative ok loss; label 12
gives the out-of-range error; label -100 is silently ignored and gives the
NaN loss. -/
theorem c3_amended_loss_nonneg_or_error_witness :
    (∃ r, stepLoss zeroParams [(zeroImage, 3)] = Except.ok (some r) ∧ 0 ≤ r) ∧
    stepLoss zeroParams [(zeroImage, 12)] = Except.error CEError.labelOutOfRange ∧
    stepLoss zeroParams [(zeroImage, -100)] = Except.ok none := by
  refine ⟨?_, ?_, ?_⟩
  · exact (c3_amended_loss_nonneg_or_error zeroParams [(zeroImage, 3)] zeroParams_wf).1
      (by simp) (by intro s hs; rw [List.mem_singleton] at hs; rw [hs]; norm_num)
  · exact (c3_amended_loss_nonneg_or_error zeroParams [(zeroImage, 12)] zeroParams_wf).2.1
      ⟨(zeroImage, 12), List.mem_singleton.mpr rfl, Or.inr (by norm_num), by norm_num⟩
  · exact (c3_amended_loss_nonneg_or_error zeroParams
      [(zeroImage, -100)] zeroParams_wf).2.2
      (by intro s hs; rw [List.mem_singleton] at hs; rw [hs])

/-- **C4**: the inference/report step fails explicitly on an empty held-out
split; on a nonempty split it uses exactly the first sample, takes the argmax
of the model's scores as the predicted class id, both class-list lookups are
in bounds, and the printed line is exactly
`Predicted: "<predicted-label>", Actual: "<actual-label>"`. -/
theorem c4_report_format (p : Params) (hp : ParamsWF p) :
    reportStep p [] = Except.error ReportError.emptyTestSet ∧
    ∀ (x : Image) (y : ℤ) (rest : List (Image × ℤ)), 0 ≤ y → y < 10 →
      argmax (NeuralNetwork.forward p x) < classes.length ∧
      y.toNat < classes.length ∧
      reportStep p ((x, y) :: rest) =
        Except.ok ("Predicted: \""
          ++ classes.getD (argmax (NeuralNetwork.forward p x)) ""
          ++ "\", Actual: \"" ++ classes.getD y.toNat "" ++ "\"") := by
  refine ⟨rfl, ?_⟩
  intro x y rest h0 h1
  have ham := argmax_forward_lt p hp x
  have hclen : classes.length = 10 := rfl
  refine ⟨by rw [hclen]; exact ham, by rw [hclen]; omega, ?_⟩
  simp only [reportStep]
  exact reportLine_chars p hp x y h0 h1

/-- Witness for C4 at the zero-initialized network, a blank image, and the
true label 3. -/
theorem c4_report_format_witness :
    reportStep zeroParams [] = Except.error ReportError.emptyTestSet ∧
    argmax (NeuralNetwork.forward zeroParams zeroImage) < classes.length ∧
    (3 : ℤ).toNat < classes.length ∧
    reportStep zeroParams [(zeroImage, (3 : ℤ))] =
      Except.ok ("Predicted: \""
        ++ classes.getD (argmax (NeuralNetwork.forward zeroParams zeroImage)) ""
        ++ "\", Actual: \"" ++ classes.getD (3 : ℤ).toNat "" ++ "\"") := by
  have h := c4_report_format zeroParams zeroParams_wf
  have h2 := h.2 zeroImage 3 [] (by norm_num) (by norm_num)
  exact ⟨h.1, h2.1, h2.2.1, h2.2.2⟩

/-- **C5 counterexample**: a single `validation_step` invocation records the
loss under the training metric name as well — its emitted metric names are
`["train_loss", "val_loss"]`, not just `"val_loss"` — because
`validation_step` calls `training_step`, whose `self.log('train_loss', ...)`
runs inside validation. -/
theorem c5_validation_logs_train_cex :
    (NeuralNetwork.validation_step zeroParams [(zeroImage, 0)]).map
        (fun q => q.2.map Prod.fst) = Except.ok ["train_loss", "val_loss"] := by
  rw [validation_step_zeroBatch]
  rfl

/-- **C5 amended**: a `training_step` invocation emits exactly one scalar,
under `train_loss`; a `validation_step` invocation emits two scalars — the
loss under `train_loss` (via its nested `training_step` call) and the same
loss under `val_loss`. -/
theorem c5_amended_log_names (p : Params) (batch : List (Image × ℤ)) :
    (NeuralNetwork.training_step p batch).map Prod.snd =
      (stepLoss p batch).map (fun l => [("train_loss", l)]) ∧
    (NeuralNetwork.validation_step p batch).map Prod.snd =
      (stepLoss p batch).map (fun l => [("train_loss", l), ("val_loss", l)]) := by
  unfold NeuralNetwork.validation_step NeuralNetwork.training_step
  cases h : stepLoss p batch <;> simp [Except.map]

/-- **C6 counterexample**: over a whole run the script prints two lines, not
one — the working-directory path from `print(path)` (line 64) and the
prediction line (line 95). -/
theorem c6_two_lines_cex :
    printedLines (scriptEffects zeroParams [(zeroImage, 0)]) =
      ["/workspace", "Predicted: \"T-shirt/top\", Actual: \"T-shirt/top\""] ∧
    (printedLines (scriptEffects zeroParams [(zeroImage, 0)])).length = 2 := by
  have hre : reportEffects zeroParams [(zeroImage, 0)] =
      [Effect.inferForward,
       Effect.printLine "Predicted: \"T-shirt/top\", Actual: \"T-shirt/top\""] := by
    simp only [reportEffects, reportLine_zero]
  constructor <;>
    · unfold scriptEffects
      rw [hre]
      rfl

/-- **C6 amended**: whenever the report step succeeds, the run prints exactly
two lines: the working directory `/workspace` (after the chdir), and, at the
end, the report line in the §4.6 format. -/
theorem c6_amended_printed (p : Params) (test : List (Image × ℤ)) (s : String)
    (h : reportStep p test = Except.ok s) :
    printedLines (scriptEffects p test) = ["/workspace", s] := by
  match test with
  | [] => simp [reportStep] at h
  | (x, y) :: rest =>
    simp only [reportStep] at h
    have hre : reportEffects p ((x, y) :: rest) =
        [Effect.inferForward, Effect.printLine s] := by
      simp only [reportEffects, h]
    unfold scriptEffects
    rw [hre]
    rfl

/-- Witness for C6 amended at the zero-initialized network. -/
theorem c6_amended_printed_witness :
    printedLines (scriptEffects zeroParams [(zeroImage, 0)]) =
      ["/workspace", "Predicted: \"T-shirt/top\", Actual: \"T-shirt/top\""] :=
  c6_amended_printed zeroParams [(zeroImage, 0)] _ reportStep_zero

/-- **C7**: `configure_optimizers` returns a single SGD optimizer over the
model's parameter collection at the fixed learning rate 1e-3, with no
momentum and no weight decay; being a pure function of the parameter
collection, it is deterministic. -/
theorem c7_optimizer_config (p : Params) :
    (NeuralNetwork.configure_optimizers p).kind = OptimKind.sgd ∧
    (NeuralNetwork.configure_optimizers p).lr = 1 / 1000 ∧
    (NeuralNetwork.configure_optimizers p).momentum = 0 ∧
    (NeuralNetwork.configure_optimizers p).weightDecay = 0 ∧
    (NeuralNetwork.configure_optimizers p).nesterov = false ∧
    (NeuralNetwork.configure_optimizers p).params = p :=
  ⟨rfl, rfl, rfl, rfl, rfl, rfl⟩

/-- **C8**: the trace contains exactly one model-construction event; it
precedes the `trainer.fit` call, and every inference forward pass comes
strictly after `fit` returns (the report block uses the same, single model
value `p` that `fit` trained). -/
theorem c8_single_model_ordering (p : Params) (test : List (Image × ℤ)) :
    ∃ pre post : List Effect,
      scriptEffects p test = pre ++ Effect.modelCreate :: Effect.fit :: post ∧
      Effect.modelCreate ∉ pre ∧ Effect.modelCreate ∉ post ∧
      Effect.fit ∉ pre ∧ Effect.fit ∉ post ∧
      Effect.inferForward ∉ pre := by
  refine ⟨[Effect.download "data" true, Effect.download "data" false,
    Effect.chdir "/workspace", Effect.printLine "/workspace"],
    reportEffects p test, rfl, by decide, ?_, by decide, ?_, by decide⟩
  · intro hc
    rcases reportEffects_mem p test _ hc with h | ⟨s, h⟩ <;> simp at h
  · intro hc
    rcases reportEffects_mem p test _ hc with h | ⟨s, h⟩ <;> simp at h

/-- **C9 counterexample**: the first three effects of the run are the two
dataset downloads followed by the chdir — dataset acquisition into the
relative root "data" happens *before* the working-directory change, not
after it. -/
theorem c9_download_before_chdir_cex :
    (scriptEffects zeroParams [(zeroImage, 0)]).take 3 =
      [Effect.download "data" true, Effect.download "data" false,
       Effect.chdir "/workspace"] := rfl

/-- **C9 amended**: the script performs both dataset acquisitions (into the
relative root "data", i.e. relative to the *original* working directory)
first, and only then changes its working directory to the fixed absolute path
`/workspace`; no further chdir or download occurs afterwards. -/
theorem c9_amended_chdir_after_downloads (p : Params) (test : List (Image × ℤ)) :
    ∃ tail : List Effect,
      scriptEffects p test =
        Effect.download "data" true :: Effect.download "data" false ::
          Effect.chdir "/workspace" :: tail ∧
      (∀ s : String, Effect.chdir s ∉ tail) ∧
      (∀ (r : String) (b : Bool), Effect.download r b ∉ tail) := by
  refine ⟨[Effect.printLine "/workspace", Effect.modelCreate, Effect.fit]
    ++ reportEffects p test, rfl, ?_, ?_⟩
  · intro s hc
    rw [List.mem_append] at hc
    rcases hc with hc | hc
    · simp at hc
    · rcases reportEffects_mem p test _ hc with h | ⟨t, h⟩ <;> simp at h
  · intro r b hc
    rw [List.mem_append] at hc
    rcases hc with hc | hc
    · simp at hc
    · rcases reportEffects_mem p test _ hc with h | ⟨t, h⟩ <;> simp at h

/-- **C10**: the class-label list has exactly 10 entries, equal to the
model's output dimension; the argmax of the 10-element score vector and any
true label in [0,10) are both valid indices into it, so the two lookups of
the report step cannot go out of bounds. -/
theorem c10_lookup_safe (p : Params) (hp : ParamsWF p) :
    classes.length = 10 ∧
    (∀ x : Image, (NeuralNetwork.forward p x).length = classes.length) ∧
    (∀ x : Image, argmax (NeuralNetwork.forward p x) < classes.length) ∧
    (∀ y : ℤ, 0 ≤ y → y < 10 → (classes[y.toNat]?).isSome = true) ∧
    (∀ x : Image, (classes[argmax (NeuralNetwork.forward p x)]?).isSome = true) := by
  have hclen : classes.length = 10 := rfl
  refine ⟨rfl, fun x => by rw [hclen]; exact length_forward p hp x,
    fun x => by rw [hclen]; exact argmax_forward_lt p hp x, ?_, ?_⟩
  · intro y h0 h1
    have hb : y.toNat < classes.length := by rw [hclen]; omega
    rw [List.getElem?_eq_getElem hb]
    rfl
  · intro x
    have hb : argmax (NeuralNetwork.forward p x) < classes.length := by
      rw [hclen]; exact argmax_forward_lt p hp x
    rw [List.getElem?_eq_getElem hb]
    rfl

/-- Witness for C10 at the zero-initialized network, a blank image, and the
label 7. -/
theorem c10_lookup_safe_witness :
    classes.length = 10 ∧
    argmax (NeuralNetwork.forward zeroParams zeroImage) < classes.length ∧
    (classes[(7 : ℤ).toNat]?).isSome = true ∧
    (classes[argmax (NeuralNetwork.forward zeroParams zeroImage)]?).isSome = true := by
  have h := c10_lookup_safe zeroParams zeroParams_wf
  exact ⟨h.1, h.2.2.1 zeroImage, h.2.2.2.1 7 (by norm_num) (by norm_num),
    h.2.2.2.2 zeroImage⟩
